import Mathlib

/-!
Shallow embedding of `src/lib/main.js` of cli-fuzzy-search: the incremental
search/selection controller.  The closure-captured mutable variables of the
promise executor (`found`, `count`, `terms`, `line`, `start`, `loadedPages`,
`morePages`, `loadingNextPage`, `cachedResults`) become fields of an explicit
state record `Sys`.  JavaScript object identity of the `terms` array (used by
the race check `_terms !== terms` and by the `loadingNextPage` WeakSet) is
modelled by a numeric identity tag `termsId`, freshly allocated whenever the
code executes `terms = chars`.  Asynchronous fetches are modelled by an
explicit log: starting a fetch appends a `Fetch` record to `fetchLog` (one
entry per invocation of the external `search` collaborator), and the arrival
of a response is the separate step `onFetchComplete`, mirroring the `.then`
callback.  Display side effects are modelled by counters/flags
(`displayUpdates` for `updateList`, `loading` for `updateStatus(null, true)`,
`inputShown` for the input line).  The mutual recursion between `updateList`
(auto-pagination) and `loadNextPage` (cache-hit redisplay) is fuel-indexed;
in the real program the recursion depth is bounded because cached entries
always carry `loadedPages >= 1`.
-/

namespace CFS

/-- An item of the result list.  Items are opaque records with a display
`label`; the controller annotates each with a zero-based `index`
(`Object.assign({}, item, { index: found.length + i })`). -/
structure Item where
  label : String := ""
  highlight : List Nat := []
  index : Nat := 0
deriving DecidableEq

/-- One invocation of the external `search` collaborator:
`search(terms.join(""), page)`, tagged with the identity of the `terms`
object captured at call time (`const _terms = terms`). -/
structure Fetch where
  termsId : Nat
  query : String
  page : Nat
deriving DecidableEq

/-- The shape `{ data, total, more }` resolved by the `search` collaborator. -/
structure SearchResult where
  data : List Item
  total : Nat
  more : Bool
deriving DecidableEq

/-- A value of the `cachedResults` map: the tuple
`[loadedPages, found, count, morePages]` stored after a successful fetch. -/
structure CacheEntry where
  loadedPages : Nat
  found : List Item
  count : Nat
  morePages : Bool
deriving DecidableEq

/-- Resolution of the overall promise: `resolve(result)` or `reject(err)`. -/
inductive Outcome where
  | ok (result : Option Item)
  | error (msg : String)
deriving DecidableEq

/-- The controller state: every closure variable of the promise executor in
`main.js`, plus observation fields for the modelled side effects. -/
structure Sys where
  /-- `data` option truthy (dataset mode available). -/
  hasData : Bool
  /-- `search` option truthy (search mode). -/
  hasSearch : Bool
  /-- the `cache` option. -/
  cacheEnabled : Bool
  /-- the `size` option (viewport height). -/
  size : Nat
  found : List Item
  count : Nat
  /-- current characters of the query (`terms`). -/
  terms : List Char
  /-- identity tag of the current `terms` array object. -/
  termsId : Nat
  /-- next fresh identity tag for a `terms = chars` assignment. -/
  nextTermsId : Nat
  line : Int
  start : Int
  loadedPages : Nat
  morePages : Bool
  /-- identity tags in the `loadingNextPage` WeakSet. -/
  inFlight : List Nat
  /-- the `cachedResults` Map; `set` is modelled by cons (shadowing), so
  `lookupCache` (first match) has exactly the Map get/set behaviour. -/
  cachedResults : List (String × CacheEntry)
  /-- log of invocations of the external `search` collaborator. -/
  fetchLog : List Fetch
  /-- number of `updateList` display refreshes performed. -/
  displayUpdates : Nat
  /-- the loading flag of the status line (`updateStatus(_, loading)`). -/
  loading : Bool
  /-- whether the input listeners are still attached
  (`input.removeAllListeners()` clears this). -/
  listenersAttached : Bool
  /-- resolution of the overall promise, once settled. -/
  resolved : Option Outcome
deriving DecidableEq

/-- Lookup in the `cachedResults` map (`cachedResults.get(query)`). -/
def lookupCache : List (String × CacheEntry) → String → Option CacheEntry
  | [], _ => none
  | (k, v) :: rest, q => if k = q then some v else lookupCache rest q

/-- The fetch-starting tail of `loadNextPage` (after the cache check):
`updateStatus(null, true)`, the in-flight dedup check
`if (loadingNextPage.has(_terms)) return`, then `loadingNextPage.add(_terms)`
and the call `search(terms.join(""), loadedPages + 1)`. -/
def startFetch (s : Sys) (query : String) : Sys :=
  let s1 : Sys := { s with loading := true }
  if s1.termsId ∈ s1.inFlight then s1
  else
    { s1 with
      inFlight := s1.termsId :: s1.inFlight,
      fetchLog := s1.fetchLog ++ [⟨s1.termsId, query, s1.loadedPages + 1⟩] }

mutual

/-- `updateList` of `main.js`: refresh the status line (clearing the loading
flag) and the visible rows — modelled by the `displayUpdates` counter — then
auto-paginate: `if (search && start + size >= found.length && morePages)
loadNextPage()`. -/
def updateList : Nat → Sys → Sys
  | 0, s => s
  | fuel + 1, s =>
    let s1 : Sys := { s with
      displayUpdates := s.displayUpdates + 1, loading := false }
    if s1.hasSearch = true ∧ (s1.found.length : Int) ≤ s1.start + (s1.size : Int)
        ∧ s1.morePages = true then
      loadNextPage fuel s1
    else s1

/-- The synchronous part of `loadNextPage` of `main.js`: on
`loadedPages === 0` with a cache hit, restore
`[loadedPages, found, count, morePages]` and redisplay; otherwise start a
fetch (see `startFetch`). -/
def loadNextPage : Nat → Sys → Sys
  | 0, s => s
  | fuel + 1, s =>
    let query := String.mk s.terms
    if s.loadedPages = 0 then
      match lookupCache s.cachedResults query with
      | some e =>
        updateList fuel { s with
          loadedPages := e.loadedPages, found := e.found,
          count := e.count, morePages := e.morePages }
      | none => startFetch s query
    else startFetch s query

end

/-- The state mutations of the applied (non-discarded) branch of the fetch
completion callback, before the final `updateList()`: append the items with
contiguous indices (`index: found.length + i`), set
`count = total; loadedPages = page; morePages = !!more`, and write through to
`cachedResults` when caching is enabled. -/
def applyFetch (s : Sys) (f : Fetch) (r : SearchResult) : Sys :=
  let added := r.data.mapIdx fun i item => { item with index := s.found.length + i }
  let s2 : Sys := { s with
    found := s.found ++ added, count := r.total,
    loadedPages := f.page, morePages := r.more }
  if s2.cacheEnabled then
    { s2 with cachedResults :=
        (f.query, ⟨s2.loadedPages, s2.found, s2.count, s2.morePages⟩)
          :: s2.cachedResults }
  else s2

/-- The `.then` callback of the fetch started by `loadNextPage`: remove the
captured terms object from `loadingNextPage`, discard the response if the
captured terms object is no longer current (`_terms !== terms`), otherwise
apply the fetched page (see `applyFetch`) and redisplay. -/
def onFetchComplete (fuel : Nat) (s : Sys) (f : Fetch) (r : SearchResult) : Sys :=
  let s1 : Sys := { s with inFlight := s.inFlight.erase f.termsId }
  if f.termsId ≠ s1.termsId then s1
  else updateList fuel (applyFetch s1 f r)

/-- `onChangeLine` of `main.js`: clamp the new cursor line into
`[0, found.length - 1]`, pull `start` down when moving up past the window,
push it up when moving down past the window, then redisplay. -/
def onChangeLine (fuel : Nat) (dline dpage : Int) (s : Sys) : Sys :=
  let s1 : Sys := { s with
    line := max 0 (min ((s.found.length : Int) - 1)
      (s.line + dline + dpage * (s.size : Int))) }
  let s2 : Sys :=
    if (dline < 0 ∨ dpage < 0) ∧ s1.line < s1.start then
      { s1 with start := s1.line }
    else if (dline > 0 ∨ dpage > 0) ∧ s1.line ≥ s1.start + (s1.size : Int) then
      { s1 with start := s1.line - (s1.size : Int) + 1 }
    else s1
  updateList fuel s2

/-- JavaScript array indexing `found[line]`: `undefined` (none) out of range. -/
def jsIndex (l : List Item) (i : Int) : Option Item :=
  if h : 0 ≤ i ∧ i.toNat < l.length then some (l.get ⟨i.toNat, h.2⟩) else none

/-- `end` of `main.js`: `input.removeAllListeners()` then settle the promise
(`reject(err)` / `resolve(result)`); settling an already-settled promise is a
no-op. -/
def endOp (err : Option String) (result : Option Item) (s : Sys) : Sys :=
  let s1 : Sys := { s with listenersAttached := false }
  if s1.resolved.isSome then s1
  else
    match err with
    | some e => { s1 with resolved := some (.error e) }
    | none => { s1 with resolved := some (.ok result) }

/-- `onSelect` of `main.js`: `end(null, found[line])`. -/
def onSelect (s : Sys) : Sys :=
  endOp none (jsIndex s.found s.line) s

/-- `onEnd` of `main.js` (abort): `end()`. -/
def onEnd (s : Sys) : Sys :=
  endOp none none s

/-- A keystroke-change event delivered by the external input-decoding
collaborator: `change(chars, cursorPosition, wasModified)`. -/
structure KeyEv where
  t : Nat
  chars : List Char
  pos : Nat
  modified : Bool
deriving DecidableEq

/-- State of the input/debounce component: the `terms` variable, the rendered
input line, and the pending debounce deadline of `debouncedFilterDataset`,
plus a log of the term sequences each fired filter pass ran with. -/
structure DebSt where
  terms : List Char
  inputShown : List Char
  inputUpdates : Nat
  deadline : Option Nat
  filterRuns : List (List Char)
deriving DecidableEq

/-- Firing of the debounced `filterDataset`: run the filter pass with the
current `terms` and clear the pending timer. -/
def debFire (s : DebSt) : DebSt :=
  { s with deadline := none, filterRuns := s.filterRuns ++ [s.terms] }

/-- Modelled from the spec: the trailing-edge debounce timer of
`lodash.debounce` (an external dependency, not under `src/`): a pending
timer whose deadline has been reached by `now` fires before the next event
is handled; otherwise nothing happens. -/
def debTimerAt (now : Nat) (s : DebSt) : DebSt :=
  match s.deadline with
  | some d => if d ≤ now then debFire s else s
  | none => s

/-- `onChangeInput` of `main.js`, timestamped: update the displayed input
line immediately, and when the event modified the term sequence, set
`terms = chars` and re-arm the debounced `filterDataset` to fire
`delay` after this keystroke. -/
def onChangeInput (delay : Nat) (s : DebSt) (e : KeyEv) : DebSt :=
  let s1 := debTimerAt e.t s
  let s2 : DebSt := { s1 with inputShown := e.chars, inputUpdates := s1.inputUpdates + 1 }
  if e.modified then { s2 with terms := e.chars, deadline := some (e.t + delay) }
  else s2

/-- Let a pending debounce timer expire after the last event of a run. -/
def debFlush (s : DebSt) : DebSt :=
  match s.deadline with
  | some _ => debFire s
  | none => s

/-- Process a time-ordered list of keystroke events, then let any pending
debounce timer expire. -/
def debRun (delay : Nat) (s : DebSt) (evs : List KeyEv) : DebSt :=
  debFlush (evs.foldl (onChangeInput delay) s)

/-- The last event of `a :: evs`. -/
def lastEv (a : KeyEv) : List KeyEv → KeyEv
  | [] => a
  | b :: r => lastEv b r

/-- A JavaScript value as far as the construction-time checks observe it:
absent/undefined, another falsy value, a function, or a truthy non-function
carrying its `typeof` string. -/
inductive JsVal where
  | undef
  | falsy
  | funcVal
  | nonFunc (typeName : String)
deriving DecidableEq

/-- JavaScript truthiness as used by `!data && !search` and `search && ...`. -/
def truthy : JsVal → Bool
  | .undef => false
  | .falsy => false
  | _ => true

/-- The construction-time options relevant to validation. -/
structure Config where
  data : JsVal := .undef
  search : JsVal := .undef
deriving DecidableEq

/-- Setup side effects of the promise executor, in program order: configuring
stdin (`setRawMode`/`resume`/`setEncoding`), scheduling the initial load, and
attaching the input listeners (`userInput(stdin, debug).on(...)`). -/
inductive SetupEffect where
  | configureStdin
  | scheduleInitialLoad
  | attachListeners
deriving DecidableEq

/-- Outcome of running the promise executor up to the end of its synchronous
body: the setup effects performed and an immediate rejection, if any. -/
structure ConstructResult where
  effects : List SetupEffect
  rejection : Option String
deriving DecidableEq

/-- The validation prologue of the promise executor in `main.js`:
`if (!data && !search) reject(...)`, then
`if (search && typeof search !== "function") reject(...)`; only past both
checks does the executor touch stdin and attach listeners. -/
def construct (c : Config) : ConstructResult :=
  if truthy c.data = false ∧ truthy c.search = false then
    ⟨[], some "Required option \"data\" or \"search\""⟩
  else
    match c.search with
    | .nonFunc t =>
      ⟨[], some ("Option \"search\" must be a function and a " ++ t
        ++ " was received")⟩
    | _ => ⟨[.configureStdin, .scheduleInitialLoad, .attachListeners], none⟩

/-- The controller state right after successful construction in search mode:
all closure variables at their declared initial values, listeners attached,
and the initial `Promise.resolve().then(() => loadNextPage())` not yet run. -/
def initSearchSys (size : Nat) (cacheEnabled : Bool) : Sys :=
  { hasData := false, hasSearch := true, cacheEnabled := cacheEnabled,
    size := size, found := [], count := 0, terms := [], termsId := 0,
    nextTermsId := 1, line := 0, start := 0, loadedPages := 0,
    morePages := false, inFlight := [], cachedResults := [], fetchLog := [],
    displayUpdates := 0, loading := false, listenersAttached := true,
    resolved := none }

/-- Concrete fixture: a cache entry for query "ab" holding page 1 of 12
results with more pages available. -/
def entryAb : CacheEntry := ⟨1, [{ label := "x", index := 0 }], 12, true⟩

/-- Concrete fixture: a search session re-entering query "ab" (fresh terms
object 1, nothing loaded yet) with `entryAb` cached. -/
def sysAb : Sys :=
  { initSearchSys 10 true with
    terms := ['a', 'b'], termsId := 1, cachedResults := [("ab", entryAb)] }

/-- Concrete fixture: a fully-loaded cache entry for query "a" (one page,
no more pages). -/
def entryA : CacheEntry := ⟨1, [{ label := "x", index := 0 }], 1, false⟩

/-- Concrete fixture: a search session re-entering query "a" (fresh terms
object 2, nothing loaded yet) with `entryA` cached. -/
def sysA : Sys :=
  { initSearchSys 10 true with
    terms := ['a'], termsId := 2, cachedResults := [("a", entryA)] }

/-- Concrete fixture: a search session on query "q" with page 1 loaded
(5 of 12 results, more pages available) and the viewport scrolled to
`start = 3` with `size = 10`, as in the auto-pagination scenario. -/
def sysPage : Sys :=
  { initSearchSys 10 true with
    terms := ['q'], found := [{ label := "r0", index := 0 }, { label := "r1", index := 1 },
      { label := "r2", index := 2 }, { label := "r3", index := 3 }, { label := "r4", index := 4 }],
    count := 12, loadedPages := 1, morePages := true, start := 3 }

/-- Concrete fixture: the input/debounce component in its initial state. -/
def deb0 : DebSt := ⟨[], [], 0, none, []⟩

/-- The fields of the controller state that neither `updateList` nor
`loadNextPage` (synchronous part) ever writes. -/
def Inert (t s : Sys) : Prop :=
  t.hasData = s.hasData ∧ t.hasSearch = s.hasSearch ∧ t.cacheEnabled = s.cacheEnabled ∧
  t.size = s.size ∧ t.terms = s.terms ∧ t.termsId = s.termsId ∧
  t.nextTermsId = s.nextTermsId ∧ t.line = s.line ∧ t.start = s.start ∧
  t.cachedResults = s.cachedResults ∧ t.listenersAttached = s.listenersAttached ∧
  t.resolved = s.resolved

/-! ### Helper lemmas -/

/-- Mapping `Item.index` over a `mapIdx` index assignment yields the assigned
index sequence. -/
theorem map_index_mapIdx (g : Nat → Nat) : ∀ l : List Item,
    (List.mapIdx (fun i it => { it with index := g i }) l).map Item.index
      = (List.range l.length).map g := by
  intro l
  induction l generalizing g with
  | nil => rfl
  | cons a l ih =>
    rw [List.mapIdx_cons, List.length_cons, List.range_succ_eq_map]
    simp only [List.map_cons, List.map_map]
    rw [ih (fun i => g (i + 1))]
    simp [Function.comp_def]

theorem inert_refl {s : Sys} : Inert s s :=
  ⟨rfl, rfl, rfl, rfl, rfl, rfl, rfl, rfl, rfl, rfl, rfl, rfl⟩

theorem inert_trans {t u s : Sys} (h1 : Inert t u) (h2 : Inert u s) : Inert t s := by
  unfold Inert at *
  obtain ⟨a1, a2, a3, a4, a5, a6, a7, a8, a9, a10, a11, a12⟩ := h1
  obtain ⟨b1, b2, b3, b4, b5, b6, b7, b8, b9, b10, b11, b12⟩ := h2
  exact ⟨a1.trans b1, a2.trans b2, a3.trans b3, a4.trans b4, a5.trans b5, a6.trans b6,
    a7.trans b7, a8.trans b8, a9.trans b9, a10.trans b10, a11.trans b11, a12.trans b12⟩

theorem inert_startFetch (s : Sys) (q : String) : Inert (startFetch s q) s := by
  unfold Inert startFetch
  dsimp only
  split <;> simp

/-- `updateList` and `loadNextPage` only ever write `found`, `count`,
`loadedPages`, `morePages`, `inFlight`, `fetchLog`, `displayUpdates` and
`loading`; every other field is untouched at any fuel. -/
theorem inert_both : ∀ fuel : Nat,
    (∀ s : Sys, Inert (updateList fuel s) s) ∧ (∀ s : Sys, Inert (loadNextPage fuel s) s) := by
  intro fuel
  induction fuel with
  | zero => exact ⟨fun _ => inert_refl, fun _ => inert_refl⟩
  | succ n ih =>
    constructor
    · intro s
      rw [updateList]
      dsimp only
      split
      · exact inert_trans (ih.2 _) (by unfold Inert; simp)
      · unfold Inert; simp
    · intro s
      rw [loadNextPage]
      split
      · split
        · exact inert_trans (ih.1 _) (by unfold Inert; simp)
        · exact inert_startFetch _ _
      · exact inert_startFetch _ _

theorem inert_updateList (fuel : Nat) (s : Sys) : Inert (updateList fuel s) s :=
  (inert_both fuel).1 s

theorem inert_loadNextPage (fuel : Nat) (s : Sys) : Inert (loadNextPage fuel s) s :=
  (inert_both fuel).2 s

/-- When `loadedPages` is nonzero, the cache-restore branch of `loadNextPage`
is unreachable, so the result-set fields and the cache are untouched. -/
theorem loadNextPage_core_stable (fuel : Nat) (s : Sys) (h : s.loadedPages ≠ 0) :
    (loadNextPage fuel s).found = s.found ∧ (loadNextPage fuel s).count = s.count ∧
    (loadNextPage fuel s).loadedPages = s.loadedPages ∧
    (loadNextPage fuel s).morePages = s.morePages ∧
    (loadNextPage fuel s).displayUpdates = s.displayUpdates := by
  cases fuel with
  | zero => exact ⟨rfl, rfl, rfl, rfl, rfl⟩
  | succ n =>
    rw [loadNextPage]
    simp only [h, if_false]
    unfold startFetch
    dsimp only
    split <;> simp

/-- When `loadedPages` is nonzero, `updateList` at positive fuel performs
exactly one display refresh and leaves the result-set fields and the cache
untouched. -/
theorem updateList_core_stable (fuel : Nat) (s : Sys) (h : s.loadedPages ≠ 0) :
    (updateList (fuel + 1) s).found = s.found ∧ (updateList (fuel + 1) s).count = s.count ∧
    (updateList (fuel + 1) s).loadedPages = s.loadedPages ∧
    (updateList (fuel + 1) s).morePages = s.morePages ∧
    (updateList (fuel + 1) s).displayUpdates = s.displayUpdates + 1 := by
  rw [updateList]
  dsimp only
  split
  · have := loadNextPage_core_stable fuel
      { s with displayUpdates := s.displayUpdates + 1, loading := false } h
    simpa using this
  · exact ⟨rfl, rfl, rfl, rfl, rfl⟩

/-- `updateList_core_stable` at arbitrary fuel (without the display count). -/
theorem updateList_core_stable_any (fuel : Nat) (s : Sys) (h : s.loadedPages ≠ 0) :
    (updateList fuel s).found = s.found ∧ (updateList fuel s).count = s.count ∧
    (updateList fuel s).loadedPages = s.loadedPages ∧
    (updateList fuel s).morePages = s.morePages := by
  cases fuel with
  | zero => exact ⟨rfl, rfl, rfl, rfl⟩
  | succ n =>
    obtain ⟨h1, h2, h3, h4, _⟩ := updateList_core_stable n s h
    exact ⟨h1, h2, h3, h4⟩

/-- `startFetch` when no fetch is in flight for the current terms object. -/
theorem startFetch_not_inflight (s : Sys) (q : String) (h : s.termsId ∉ s.inFlight) :
    startFetch s q =
      { s with loading := true, inFlight := s.termsId :: s.inFlight,
               fetchLog := s.fetchLog ++ [⟨s.termsId, q, s.loadedPages + 1⟩] } := by
  unfold startFetch
  simp [h]

/-- `startFetch` when a fetch is already in flight: no new fetch starts. -/
theorem startFetch_inflight (s : Sys) (q : String) (h : s.termsId ∈ s.inFlight) :
    startFetch s q = { s with loading := true } := by
  unfold startFetch
  simp [h]

/-- Away from a first-page cache hit, `loadNextPage` is `startFetch`. -/
theorem loadNextPage_fetch_eq (fuel : Nat) (s : Sys)
    (hc : s.loadedPages = 0 → lookupCache s.cachedResults (String.mk s.terms) = none) :
    loadNextPage (fuel + 1) s = startFetch s (String.mk s.terms) := by
  rw [loadNextPage]
  by_cases h0 : s.loadedPages = 0
  · simp [h0, hc h0]
  · simp [h0]

/-- A first-page call with a cache hit restores the snapshot and redisplays. -/
theorem loadNextPage_cache_eq (fuel : Nat) (s : Sys) (e : CacheEntry)
    (h0 : s.loadedPages = 0)
    (hc : lookupCache s.cachedResults (String.mk s.terms) = some e) :
    loadNextPage (fuel + 1) s =
      updateList fuel
        { s with loadedPages := e.loadedPages, found := e.found,
                 count := e.count, morePages := e.morePages } := by
  rw [loadNextPage]
  simp [h0, hc]

/-- A completion whose captured terms object is stale only clears the
in-flight marker. -/
theorem onFetchComplete_stale (fuel : Nat) (s : Sys) (f : Fetch) (r : SearchResult)
    (h : f.termsId ≠ s.termsId) :
    onFetchComplete fuel s f r = { s with inFlight := s.inFlight.erase f.termsId } := by
  unfold onFetchComplete
  simp [h]

/-- A completion whose captured terms object is current applies the page and
redisplays. -/
theorem onFetchComplete_applied (fuel : Nat) (s : Sys) (f : Fetch) (r : SearchResult)
    (h : f.termsId = s.termsId) :
    onFetchComplete fuel s f r
      = updateList fuel (applyFetch { s with inFlight := s.inFlight.erase f.termsId } f r) := by
  unfold onFetchComplete
  simp [h]

/-- Field values of `applyFetch`. -/
theorem applyFetch_proj (s : Sys) (f : Fetch) (r : SearchResult) :
    (applyFetch s f r).found
        = s.found ++ r.data.mapIdx (fun i it => { it with index := s.found.length + i }) ∧
    (applyFetch s f r).count = r.total ∧
    (applyFetch s f r).loadedPages = f.page ∧
    (applyFetch s f r).morePages = r.more ∧
    (applyFetch s f r).displayUpdates = s.displayUpdates ∧
    (applyFetch s f r).termsId = s.termsId ∧
    (applyFetch s f r).inFlight = s.inFlight ∧
    (applyFetch s f r).resolved = s.resolved ∧
    (applyFetch s f r).fetchLog = s.fetchLog := by
  unfold applyFetch
  dsimp only
  split <;> exact ⟨rfl, rfl, rfl, rfl, rfl, rfl, rfl, rfl, rfl⟩

/-- The cache write of `applyFetch` when caching is enabled. -/
theorem applyFetch_cache (s : Sys) (f : Fetch) (r : SearchResult)
    (hc : s.cacheEnabled = true) :
    (applyFetch s f r).cachedResults
      = (f.query,
          ⟨f.page,
           s.found ++ r.data.mapIdx (fun i it => { it with index := s.found.length + i }),
           r.total, r.more⟩) :: s.cachedResults := by
  unfold applyFetch
  dsimp only
  simp [hc]

/-- The cursor and scroll offset written by `onChangeLine`, before the
(display-only) `updateList`. -/
theorem onChangeLine_proj (fuel : Nat) (dline dpage : Int) (s : Sys) :
    (onChangeLine fuel dline dpage s).line
      = max 0 (min ((s.found.length : Int) - 1) (s.line + dline + dpage * (s.size : Int))) ∧
    (onChangeLine fuel dline dpage s).start
      = (if (dline < 0 ∨ dpage < 0) ∧
            max 0 (min ((s.found.length : Int) - 1) (s.line + dline + dpage * (s.size : Int)))
              < s.start
         then max 0 (min ((s.found.length : Int) - 1) (s.line + dline + dpage * (s.size : Int)))
         else if (dline > 0 ∨ dpage > 0) ∧
            max 0 (min ((s.found.length : Int) - 1) (s.line + dline + dpage * (s.size : Int)))
              ≥ s.start + (s.size : Int)
         then max 0 (min ((s.found.length : Int) - 1) (s.line + dline + dpage * (s.size : Int)))
              - (s.size : Int) + 1
         else s.start) := by
  unfold onChangeLine
  dsimp only
  constructor
  · rw [(inert_updateList fuel _).2.2.2.2.2.2.2.1]
    split
    · rfl
    · split <;> rfl
  · rw [(inert_updateList fuel _).2.2.2.2.2.2.2.2.1]
    split
    · rfl
    · split <;> rfl

/-- `debTimerAt` only touches `deadline` and `filterRuns`. -/
theorem debTimerAt_keeps (t : Nat) (s : DebSt) :
    (debTimerAt t s).terms = s.terms ∧ (debTimerAt t s).inputUpdates = s.inputUpdates ∧
    (debTimerAt t s).inputShown = s.inputShown := by
  unfold debTimerAt debFire
  rcases s.deadline with _ | d
  · exact ⟨rfl, rfl, rfl⟩
  · dsimp only
    split <;> exact ⟨rfl, rfl, rfl⟩

/-- Processing a burst of modifying keystrokes, each arriving strictly before
the deadline armed by its predecessor, fires no filter pass and leaves the
timer armed relative to the last keystroke, with `terms` at its chars. -/
theorem deb_foldl_burst (delay : Nat) : ∀ (evs : List KeyEv) (a : KeyEv) (s : DebSt),
    (∀ x ∈ evs, x.modified = true) →
    List.Chain' (fun p q => q.t < p.t + delay) (a :: evs) →
    s.deadline = some (a.t + delay) →
    s.terms = a.chars →
    (evs.foldl (onChangeInput delay) s).filterRuns = s.filterRuns ∧
    (evs.foldl (onChangeInput delay) s).deadline = some ((lastEv a evs).t + delay) ∧
    (evs.foldl (onChangeInput delay) s).terms = (lastEv a evs).chars := by
  intro evs
  induction evs with
  | nil =>
    intro a s _ _ hd ht
    exact ⟨rfl, hd, ht⟩
  | cons b rest ih =>
    intro a s hmod hchain hd ht
    have hba : b.t < a.t + delay := (List.chain'_cons.mp hchain).1
    have hstep : onChangeInput delay s b =
        { s with inputShown := b.chars, inputUpdates := s.inputUpdates + 1,
                 terms := b.chars, deadline := some (b.t + delay) } := by
      unfold onChangeInput debTimerAt
      rw [hd]
      dsimp only
      rw [if_pos (hmod b (by simp)), if_neg (show ¬(a.t + delay ≤ b.t) by omega)]
    rw [List.foldl_cons, hstep]
    exact ih b _ (fun x hx => hmod x (by simp [hx]))
      (List.chain'_cons.mp hchain).2 rfl rfl

/-! ### Claims -/

/-- C1: for every in-flight page fetch, if the fetch was started while the
terms object was Q1 and the completion handler runs when the current terms
object is a different object Q2 (identity comparison), the completion is
discarded entirely: `found`, `count`, `loadedPages` and `morePages` are left
unchanged, no display update happens, and no fetched item enters `found`
(the completion handler is the only point where fetched items can enter
`found`, and it leaves `found` untouched). -/
theorem c1_race_discard (fuel : Nat) (s : Sys) (f : Fetch) (r : SearchResult)
    (h : f.termsId ≠ s.termsId) :
    (onFetchComplete fuel s f r).found = s.found ∧
    (onFetchComplete fuel s f r).count = s.count ∧
    (onFetchComplete fuel s f r).loadedPages = s.loadedPages ∧
    (onFetchComplete fuel s f r).morePages = s.morePages ∧
    (onFetchComplete fuel s f r).displayUpdates = s.displayUpdates ∧
    (onFetchComplete fuel s f r).fetchLog = s.fetchLog := by
  rw [onFetchComplete_stale fuel s f r h]
  exact ⟨rfl, rfl, rfl, rfl, rfl, rfl⟩

/-- Witness for C1 at a concrete state: terms object 1 is current, the
completion carries terms object 0, and the result set is untouched. -/
theorem c1_race_discard_witness :
    (⟨0, "ab", 1⟩ : Fetch).termsId
        ≠ ({ initSearchSys 10 true with termsId := 1, inFlight := [0] } : Sys).termsId ∧
    (onFetchComplete 2 { initSearchSys 10 true with termsId := 1, inFlight := [0] }
        ⟨0, "ab", 1⟩ ⟨[{ label := "x" }], 5, true⟩).found
      = ({ initSearchSys 10 true with termsId := 1, inFlight := [0] } : Sys).found ∧
    (onFetchComplete 2 { initSearchSys 10 true with termsId := 1, inFlight := [0] }
        ⟨0, "ab", 1⟩ ⟨[{ label := "x" }], 5, true⟩).count
      = ({ initSearchSys 10 true with termsId := 1, inFlight := [0] } : Sys).count :=
  ⟨by decide, (c1_race_discard 2 _ _ _ (by decide)).1, (c1_race_discard 2 _ _ _ (by decide)).2.1⟩

/-- C2 counterexample: a reachable trace in which the claim fails.  A search
session starts the initial fetch, the user selects (resolving the promise and
detaching listeners) while the fetch is in flight, and the late completion —
whose captured terms object is still the current one — nevertheless appends
to `found` and triggers a display update after resolution. -/
theorem c2_counterexample :
    ((onSelect (loadNextPage 3 (initSearchSys 10 true))).resolved).isSome = true ∧
    (onFetchComplete 3 (onSelect (loadNextPage 3 (initSearchSys 10 true))) ⟨0, "", 1⟩
        ⟨[{ label := "a" }], 1, false⟩).found
      ≠ (onSelect (loadNextPage 3 (initSearchSys 10 true))).found ∧
    (onFetchComplete 3 (onSelect (loadNextPage 3 (initSearchSys 10 true))) ⟨0, "", 1⟩
        ⟨[{ label := "a" }], 1, false⟩).displayUpdates
      = (onSelect (loadNextPage 3 (initSearchSys 10 true))).displayUpdates + 1 := by
  decide

/-- C2 (amended): after the operation has resolved, a late fetch completion
is silently dropped — mutating none of `found`, `count`, `loadedPages`,
`morePages` and triggering no display update — exactly when its captured
terms object differs from the current one; a late completion for the
still-current terms object does mutate the result set and does trigger a
display update (the resolution value itself can no longer change). -/
theorem c2_post_resolution_amended (fuel : Nat) (s : Sys) (f : Fetch) (r : SearchResult)
    (o : Outcome) (hres : s.resolved = some o) :
    (f.termsId ≠ s.termsId →
      (onFetchComplete fuel s f r).found = s.found ∧
      (onFetchComplete fuel s f r).count = s.count ∧
      (onFetchComplete fuel s f r).loadedPages = s.loadedPages ∧
      (onFetchComplete fuel s f r).morePages = s.morePages ∧
      (onFetchComplete fuel s f r).displayUpdates = s.displayUpdates) ∧
    (f.termsId = s.termsId → f.page ≠ 0 →
      (onFetchComplete (fuel + 1) s f r).found.length = s.found.length + r.data.length ∧
      (onFetchComplete (fuel + 1) s f r).displayUpdates = s.displayUpdates + 1 ∧
      (onFetchComplete (fuel + 1) s f r).resolved = some o) := by
  constructor
  · intro h
    rw [onFetchComplete_stale fuel s f r h]
    exact ⟨rfl, rfl, rfl, rfl, rfl⟩
  · intro hid hp
    rw [onFetchComplete_applied (fuel + 1) s f r hid]
    have hap := applyFetch_proj { s with inFlight := s.inFlight.erase f.termsId } f r
    have hlp : (applyFetch { s with inFlight := s.inFlight.erase f.termsId } f r).loadedPages
        ≠ 0 := by
      rw [hap.2.2.1]; exact hp
    refine ⟨?_, ?_, ?_⟩
    · rw [(updateList_core_stable_any (fuel + 1) _ hlp).1, hap.1]
      dsimp only
      rw [List.length_append, List.length_mapIdx]
    · rw [(updateList_core_stable fuel _ hlp).2.2.2.2, hap.2.2.2.2.1]
    · rw [(inert_updateList (fuel + 1) _).2.2.2.2.2.2.2.2.2.2.2, hap.2.2.2.2.2.2.2.1]
      exact hres

/-- Witness for the amended C2 at the trace of the counterexample: the
resolved value is preserved while the late current-terms completion grows
`found` by one. -/
theorem c2_post_resolution_amended_witness :
    (onFetchComplete (1 + 1) (onSelect (loadNextPage 3 (initSearchSys 10 true))) ⟨0, "", 1⟩
        ⟨[{ label := "a" }], 1, false⟩).found.length
      = (onSelect (loadNextPage 3 (initSearchSys 10 true))).found.length + 1 ∧
    (onFetchComplete (1 + 1) (onSelect (loadNextPage 3 (initSearchSys 10 true))) ⟨0, "", 1⟩
        ⟨[{ label := "a" }], 1, false⟩).resolved
      = some (.ok none) :=
  have h := c2_post_resolution_amended 1 (onSelect (loadNextPage 3 (initSearchSys 10 true)))
    ⟨0, "", 1⟩ ⟨[{ label := "a" }], 1, false⟩ (.ok none) (by decide)
  ⟨(h.2 (by decide) (by decide)).1, (h.2 (by decide) (by decide)).2.2⟩

/-- C3: if `loadNextPage` starts a fetch and is invoked again while that
fetch for the exact same terms object is still in flight, the second
invocation returns without starting another fetch (the whole state is
unchanged), so two concurrent `loadNextPage` calls for the same query object
invoke the external `search` collaborator exactly once. -/
theorem c3_inflight_dedup (fuel1 fuel2 : Nat) (s : Sys)
    (hni : s.termsId ∉ s.inFlight)
    (hc : s.loadedPages = 0 → lookupCache s.cachedResults (String.mk s.terms) = none) :
    (loadNextPage (fuel1 + 1) s).fetchLog
        = s.fetchLog ++ [⟨s.termsId, String.mk s.terms, s.loadedPages + 1⟩] ∧
    loadNextPage (fuel2 + 1) (loadNextPage (fuel1 + 1) s) = loadNextPage (fuel1 + 1) s := by
  rw [loadNextPage_fetch_eq fuel1 s hc, startFetch_not_inflight s _ hni]
  refine ⟨rfl, ?_⟩
  rw [loadNextPage_fetch_eq fuel2 _ (by simpa using hc)]
  rw [startFetch_inflight _ _ (by simp)]

/-- Witness for C3 at a concrete state: the first call logs exactly one
fetch, the second is an identity. -/
theorem c3_inflight_dedup_witness :
    (loadNextPage 1 { initSearchSys 10 true with terms := ['a'], termsId := 1 }).fetchLog
        = [⟨1, "a", 1⟩] ∧
    loadNextPage 1 (loadNextPage 1 { initSearchSys 10 true with terms := ['a'], termsId := 1 })
        = loadNextPage 1 { initSearchSys 10 true with terms := ['a'], termsId := 1 } :=
  have h := c3_inflight_dedup 0 0 { initSearchSys 10 true with terms := ['a'], termsId := 1 }
    (by decide) (by decide)
  ⟨h.1.trans (by decide), h.2⟩

/-- C4 counterexample: with caching enabled, re-entering a query whose cache
entry has `morePages = true` and fits inside the viewport restores the cached
snapshot but then auto-paginates, invoking the external `search` collaborator
(for the next page) during the same `loadNextPage` call — so the call does
not return "without invoking the external search collaborator". -/
theorem c4_counterexample :
    sysAb.loadedPages = 0 ∧
    lookupCache sysAb.cachedResults (String.mk sysAb.terms) = some entryAb ∧
    (loadNextPage 3 sysAb).loadedPages = 1 ∧
    (loadNextPage 3 sysAb).found = entryAb.found ∧
    (loadNextPage 3 sysAb).fetchLog = [⟨1, "ab", 2⟩] := by
  decide

/-- C4 (amended): with caching enabled, after a fetch completes successfully
for the still-current terms object the full accumulated state
`{loadedPages, found, count, morePages}` is stored under the query string
captured at call time; re-entering a query with `loadedPages = 0` and a cache
entry restores exactly the cached quadruple without fetching those pages, and
invokes the external collaborator only if the restored state triggers
auto-pagination (window reaches the end of the restored results and
`morePages` is true), in which case a fetch for the next page is logged. -/
theorem c4_cache_roundtrip_amended (fuel1 fuel2 : Nat) (s : Sys) (e : CacheEntry)
    (f : Fetch) (r : SearchResult) :
    (f.termsId = s.termsId → s.cacheEnabled = true → f.page ≠ 0 →
      lookupCache (onFetchComplete fuel1 s f r).cachedResults f.query
        = some ⟨(onFetchComplete fuel1 s f r).loadedPages,
                (onFetchComplete fuel1 s f r).found,
                (onFetchComplete fuel1 s f r).count,
                (onFetchComplete fuel1 s f r).morePages⟩) ∧
    (s.loadedPages = 0 →
     lookupCache s.cachedResults (String.mk s.terms) = some e →
     e.loadedPages ≠ 0 →
      (loadNextPage (fuel2 + 3) s).loadedPages = e.loadedPages ∧
      (loadNextPage (fuel2 + 3) s).found = e.found ∧
      (loadNextPage (fuel2 + 3) s).count = e.count ∧
      (loadNextPage (fuel2 + 3) s).morePages = e.morePages ∧
      (¬(s.hasSearch = true ∧ (e.found.length : Int) ≤ s.start + (s.size : Int)
            ∧ e.morePages = true) →
        (loadNextPage (fuel2 + 3) s).fetchLog = s.fetchLog) ∧
      ((s.hasSearch = true ∧ (e.found.length : Int) ≤ s.start + (s.size : Int)
            ∧ e.morePages = true) →
       s.termsId ∉ s.inFlight →
        (loadNextPage (fuel2 + 3) s).fetchLog
          = s.fetchLog ++ [⟨s.termsId, String.mk s.terms, e.loadedPages + 1⟩])) := by
  constructor
  · intro hid hcache hp
    rw [onFetchComplete_applied fuel1 s f r hid]
    have hap := applyFetch_proj { s with inFlight := s.inFlight.erase f.termsId } f r
    have hlp : (applyFetch { s with inFlight := s.inFlight.erase f.termsId } f r).loadedPages
        ≠ 0 := by
      rw [hap.2.2.1]; exact hp
    obtain ⟨hF, hC, hL, hM⟩ := updateList_core_stable_any fuel1 _ hlp
    rw [(inert_updateList fuel1 _).2.2.2.2.2.2.2.2.2.1,
      applyFetch_cache { s with inFlight := s.inFlight.erase f.termsId } f r hcache,
      hF, hC, hL, hM, hap.1, hap.2.1, hap.2.2.1, hap.2.2.2.1]
    dsimp only
    simp [lookupCache]
  · intro h0 hc hel
    rw [loadNextPage_cache_eq (fuel2 + 2) s e h0 hc]
    have hlp : (Sys.mk s.hasData s.hasSearch s.cacheEnabled s.size e.found e.count s.terms
        s.termsId s.nextTermsId s.line s.start e.loadedPages e.morePages s.inFlight
        s.cachedResults s.fetchLog s.displayUpdates s.loading s.listenersAttached
        s.resolved).loadedPages ≠ 0 := hel
    obtain ⟨hF, hC, hL, hM⟩ := updateList_core_stable_any (fuel2 + 2) _ hlp
    refine ⟨hL, hF, hC, hM, ?_, ?_⟩
    · intro hcond
      rw [updateList]
      dsimp only
      rw [if_neg hcond]
    · intro hcond hni
      rw [updateList]
      dsimp only
      rw [if_pos hcond]
      rw [loadNextPage_fetch_eq fuel2 _ (fun h => absurd h hel)]
      unfold startFetch
      dsimp only
      rw [if_neg hni]

/-- Witness for the amended C4: a successful completion writes the snapshot
through to the cache, and a later re-entry whose cached `morePages` is false
restores it without any fetch. -/
theorem c4_cache_roundtrip_amended_witness :
    lookupCache (onFetchComplete 1 sysA ⟨2, "a", 1⟩ ⟨[{ label := "y" }], 1, false⟩).cachedResults
        "a"
      = some ⟨(onFetchComplete 1 sysA ⟨2, "a", 1⟩ ⟨[{ label := "y" }], 1, false⟩).loadedPages,
              (onFetchComplete 1 sysA ⟨2, "a", 1⟩ ⟨[{ label := "y" }], 1, false⟩).found,
              (onFetchComplete 1 sysA ⟨2, "a", 1⟩ ⟨[{ label := "y" }], 1, false⟩).count,
              (onFetchComplete 1 sysA ⟨2, "a", 1⟩ ⟨[{ label := "y" }], 1, false⟩).morePages⟩ ∧
    (loadNextPage 3 sysA).found = [{ label := "x", index := 0 }] ∧
    (loadNextPage 3 sysA).fetchLog = [] :=
  have h := c4_cache_roundtrip_amended 1 0 sysA entryA ⟨2, "a", 1⟩ ⟨[{ label := "y" }], 1, false⟩
  have hB := h.2 (by decide) (by decide) (by decide)
  ⟨h.1 (by decide) (by decide) (by decide),
   hB.2.1.trans (by decide),
   (hB.2.2.2.2.1 (by decide)).trans (by decide)⟩

/-- C5 counterexample: the viewport precondition `0 ≤ start ≤ line <
start + size` alone does not survive a move when the cursor sits beyond the
loaded results: with `found = []`, `line = start = 3`, `size = 10`, a
downward move clamps `line` to 0 but, because only upward moves pull `start`
down, leaves `start = 3`, breaking `start ≤ line`. -/
theorem c5_counterexample :
    (0 : Int) ≤ ({ initSearchSys 10 true with hasSearch := false, line := 3, start := 3 } : Sys).start ∧
    ({ initSearchSys 10 true with hasSearch := false, line := 3, start := 3 } : Sys).start
      ≤ ({ initSearchSys 10 true with hasSearch := false, line := 3, start := 3 } : Sys).line ∧
    ({ initSearchSys 10 true with hasSearch := false, line := 3, start := 3 } : Sys).line
      < ({ initSearchSys 10 true with hasSearch := false, line := 3, start := 3 } : Sys).start
        + (({ initSearchSys 10 true with hasSearch := false, line := 3, start := 3 } : Sys).size : Int) ∧
    ¬ ((onChangeLine 1 1 0 { initSearchSys 10 true with hasSearch := false, line := 3, start := 3 }).start
        ≤ (onChangeLine 1 1 0 { initSearchSys 10 true with hasSearch := false, line := 3, start := 3 }).line) := by
  decide

/-- C5 (amended): for every line/page move, if `0 ≤ start ≤ line <
start + size` held before the move and additionally the cursor lay on a
loaded result (`line < found.length`) — or the result list was empty with
`line = start = 0` — then afterwards the new line equals
`clamp(0, found.length - 1, line + deltaLine + deltaPage * size)` and
`0 ≤ start` and `start ≤ line < start + size` hold again. -/
theorem c5_move_line_amended (fuel : Nat) (dline dpage : Int) (s : Sys)
    (h0 : 0 ≤ s.start) (h1 : s.start ≤ s.line) (h2 : s.line < s.start + (s.size : Int))
    (h3 : s.line < (s.found.length : Int) ∨ (s.found = [] ∧ s.line = 0 ∧ s.start = 0)) :
    (onChangeLine fuel dline dpage s).line
      = max 0 (min ((s.found.length : Int) - 1) (s.line + dline + dpage * (s.size : Int))) ∧
    0 ≤ (onChangeLine fuel dline dpage s).start ∧
    (onChangeLine fuel dline dpage s).start ≤ (onChangeLine fuel dline dpage s).line ∧
    (onChangeLine fuel dline dpage s).line
      < (onChangeLine fuel dline dpage s).start + (s.size : Int) := by
  obtain ⟨hl, hs⟩ := onChangeLine_proj fuel dline dpage s
  refine ⟨hl, ?_⟩
  rw [hl, hs]
  have hP1 : 0 ≤ dpage → 0 ≤ dpage * (s.size : Int) :=
    fun h => mul_nonneg h (Int.natCast_nonneg _)
  have hP2 : dpage ≤ 0 → dpage * (s.size : Int) ≤ 0 :=
    fun h => mul_nonpos_iff.mpr (Or.inr ⟨h, Int.natCast_nonneg _⟩)
  have hlen : s.found = [] → (s.found.length : Int) = 0 := by
    intro h; rw [h]; rfl
  rcases h3 with h3 | ⟨he, hln, hst⟩
  · generalize dpage * (s.size : Int) = P at hP1 hP2 ⊢
    split_ifs <;> omega
  · rw [hlen he] at *
    generalize dpage * (s.size : Int) = P at hP1 hP2 ⊢
    split_ifs <;> omega

/-- Witness for the amended C5: a downward move on a two-element result list
lands on the last row and keeps the viewport invariant. -/
theorem c5_move_line_amended_witness :
    (onChangeLine 1 1 0 { initSearchSys 10 true with
        found := [{ label := "a", index := 0 }, { label := "b", index := 1 }], count := 2 }).line
      = 1 ∧
    0 ≤ (onChangeLine 1 1 0 { initSearchSys 10 true with
        found := [{ label := "a", index := 0 }, { label := "b", index := 1 }], count := 2 }).start ∧
    (onChangeLine 1 1 0 { initSearchSys 10 true with
        found := [{ label := "a", index := 0 }, { label := "b", index := 1 }], count := 2 }).start
      ≤ (onChangeLine 1 1 0 { initSearchSys 10 true with
        found := [{ label := "a", index := 0 }, { label := "b", index := 1 }], count := 2 }).line :=
  have h := c5_move_line_amended 1 1 0
    { initSearchSys 10 true with
      found := [{ label := "a", index := 0 }, { label := "b", index := 1 }], count := 2 }
    (by decide) (by decide) (by decide) (by decide)
  ⟨h.1.trans (by decide), h.2.1, h.2.2.1⟩

/-- C6: a fetch completion applied to the still-current terms object appends
the fetched items with contiguous indices starting at the previous
`found.length`, never recomputing existing indices (the old prefix of `found`
is kept as-is), and if the `index` values of `found` formed the dense
sequence `0..found.length-1` in display order before, they do after. -/
theorem c6_dense_indices (fuel : Nat) (s : Sys) (f : Fetch) (r : SearchResult)
    (hid : f.termsId = s.termsId) (hp : f.page ≠ 0)
    (hdense : s.found.map Item.index = List.range s.found.length) :
    (onFetchComplete fuel s f r).found
        = s.found ++ r.data.mapIdx (fun i it => { it with index := s.found.length + i }) ∧
    (onFetchComplete fuel s f r).found.map Item.index
        = List.range (onFetchComplete fuel s f r).found.length := by
  rw [onFetchComplete_applied fuel s f r hid]
  have hap := applyFetch_proj { s with inFlight := s.inFlight.erase f.termsId } f r
  have hlp : (applyFetch { s with inFlight := s.inFlight.erase f.termsId } f r).loadedPages
      ≠ 0 := by
    rw [hap.2.2.1]; exact hp
  have hf := (updateList_core_stable_any fuel _ hlp).1
  rw [hf, hap.1]
  dsimp only
  constructor
  · rfl
  · rw [List.map_append, hdense, map_index_mapIdx (fun i => s.found.length + i) r.data,
      List.length_append, List.length_mapIdx, List.range_add]

/-- Witness for C6: appending a page of one item to a one-item result set
yields items indexed 0, 1 (the fetched item's own stale index 99 is
overwritten). -/
theorem c6_dense_indices_witness :
    (onFetchComplete 1 { initSearchSys 10 true with found := [{ label := "a", index := 0 }], count := 1 }
        ⟨0, "", 2⟩ ⟨[{ label := "b", index := 99 }], 3, true⟩).found
      = [{ label := "a", index := 0 }, { label := "b", index := 1 }] :=
  have h := c6_dense_indices 1
    { initSearchSys 10 true with found := [{ label := "a", index := 0 }], count := 1 }
    ⟨0, "", 2⟩ ⟨[{ label := "b", index := 99 }], 3, true⟩ (by decide) (by decide) (by decide)
  h.1.trans (by decide)

/-- C7: on every keystroke-change event the input display is updated
immediately (even for non-modifying events); the terms are replaced and a
re-filter scheduled only when the event modified the term sequence; and a
burst of modifying keystrokes, each arriving within `debounceDelay` of its
predecessor, fires exactly one filter pass, armed `debounceDelay` after the
last keystroke and running with the final term sequence. -/
theorem c7_debounce (delay : Nat) (s : DebSt) (e e1 : KeyEv) (evs : List KeyEv) :
    ((onChangeInput delay s e).inputShown = e.chars ∧
     (onChangeInput delay s e).inputUpdates = s.inputUpdates + 1) ∧
    (e.modified = false →
      (onChangeInput delay s e).terms = s.terms ∧
      (onChangeInput delay s e).deadline = (debTimerAt e.t s).deadline ∧
      (onChangeInput delay s e).filterRuns = (debTimerAt e.t s).filterRuns) ∧
    (e.modified = true →
      (onChangeInput delay s e).terms = e.chars ∧
      (onChangeInput delay s e).deadline = some (e.t + delay)) ∧
    ((∀ x ∈ e1 :: evs, x.modified = true) →
     List.Chain' (fun p q => q.t < p.t + delay) (e1 :: evs) →
     s.deadline = none →
      (debRun delay s (e1 :: evs)).filterRuns = s.filterRuns ++ [(lastEv e1 evs).chars] ∧
      ((e1 :: evs).foldl (onChangeInput delay) s).deadline
        = some ((lastEv e1 evs).t + delay)) := by
  refine ⟨?_, ?_, ?_, ?_⟩
  · unfold onChangeInput
    dsimp only
    obtain ⟨h1, h2, h3⟩ := debTimerAt_keeps e.t s
    split
    · exact ⟨rfl, by rw [h2]⟩
    · exact ⟨rfl, by rw [h2]⟩
  · intro hm
    unfold onChangeInput
    dsimp only
    rw [if_neg (by rw [hm]; exact Bool.false_ne_true)]
    exact ⟨(debTimerAt_keeps e.t s).1, rfl, rfl⟩
  · intro hm
    unfold onChangeInput
    dsimp only
    rw [if_pos hm]
    exact ⟨rfl, rfl⟩
  · intro hmod hchain hd
    have hstep1 : onChangeInput delay s e1 =
        { s with inputShown := e1.chars, inputUpdates := s.inputUpdates + 1,
                 terms := e1.chars, deadline := some (e1.t + delay) } := by
      unfold onChangeInput debTimerAt
      rw [hd]
      dsimp only
      rw [if_pos (hmod e1 (by simp))]
    have hrest := deb_foldl_burst delay evs e1
      { s with inputShown := e1.chars, inputUpdates := s.inputUpdates + 1,
               terms := e1.chars, deadline := some (e1.t + delay) }
      (fun x hx => hmod x (by simp [hx])) hchain rfl rfl
    constructor
    · unfold debRun
      rw [List.foldl_cons, hstep1]
      unfold debFlush
      rw [hrest.2.1]
      unfold debFire
      dsimp only
      rw [hrest.1, hrest.2.2]
    · rw [List.foldl_cons, hstep1, hrest.2.1]

/-- Witness for C7: two modifying keystrokes 100 apart with a 300 delay fire
exactly one filter pass, with the final terms, armed at 100 + 300. -/
theorem c7_debounce_witness :
    (onChangeInput 300 deb0 ⟨0, ['a'], 1, true⟩).inputShown = ['a'] ∧
    (debRun 300 deb0 [⟨0, ['a'], 1, true⟩, ⟨100, ['a', 'b'], 2, true⟩]).filterRuns
      = [['a', 'b']] ∧
    ([⟨0, ['a'], 1, true⟩, (⟨100, ['a', 'b'], 2, true⟩ : KeyEv)].foldl (onChangeInput 300) deb0).deadline
      = some 400 :=
  have h := c7_debounce 300 deb0 ⟨0, ['a'], 1, true⟩ ⟨0, ['a'], 1, true⟩
    [⟨100, ['a', 'b'], 2, true⟩]
  have hb := h.2.2.2 (by decide)
    (List.chain'_cons.mpr ⟨by decide, List.chain'_singleton _⟩) (by decide)
  ⟨h.1.1, hb.1.trans (by decide), hb.2.trans (by decide)⟩

/-- C8: after every display update in search mode, if the visible window's
upper edge reaches or passes the end of the loaded results
(`start + size >= found.length`) and `morePages` is true, `loadNextPage` is
invoked automatically (and, when no fetch is in flight and this is not a
first-page cache hit, a fetch for page `loadedPages + 1` is logged); if
either condition fails, the update performs the display refresh only and
triggers no fetch. -/
theorem c8_auto_pagination (fuel : Nat) (s : Sys) :
    ((s.hasSearch = true ∧ (s.found.length : Int) ≤ s.start + (s.size : Int)
        ∧ s.morePages = true) →
      updateList (fuel + 1) s
        = loadNextPage fuel
            { s with displayUpdates := s.displayUpdates + 1, loading := false }) ∧
    (¬(s.hasSearch = true ∧ (s.found.length : Int) ≤ s.start + (s.size : Int)
        ∧ s.morePages = true) →
      updateList (fuel + 1) s
        = { s with displayUpdates := s.displayUpdates + 1, loading := false }) ∧
    ((s.hasSearch = true ∧ (s.found.length : Int) ≤ s.start + (s.size : Int)
        ∧ s.morePages = true) →
     s.termsId ∉ s.inFlight →
     (s.loadedPages = 0 → lookupCache s.cachedResults (String.mk s.terms) = none) →
      (updateList (fuel + 2) s).fetchLog
        = s.fetchLog ++ [⟨s.termsId, String.mk s.terms, s.loadedPages + 1⟩]) := by
  refine ⟨?_, ?_, ?_⟩
  · intro h
    rw [updateList]
    dsimp only
    rw [if_pos h]
  · intro h
    rw [updateList]
    dsimp only
    rw [if_neg h]
  · intro h hni hc
    rw [updateList]
    dsimp only
    rw [if_pos h]
    rw [loadNextPage_fetch_eq fuel _ (by exact hc)]
    unfold startFetch
    dsimp only
    rw [if_neg hni]

/-- Witness for C8 at the spec's scenario: 5 of 12 results loaded with more
pages, `size = 10`, `start = 3` — the display update logs a fetch for
page 2. -/
theorem c8_auto_pagination_witness :
    (updateList 2 sysPage).fetchLog = [⟨0, "q", 2⟩] :=
  ((c8_auto_pagination 0 sysPage).2.2 (by decide) (by decide) (by decide)).trans (by decide)

/-- C9: the promise executor rejects with a configuration error — before
stdin is configured, before the initial load is scheduled and before any
input listener attaches — exactly when neither `data` nor `search` is
supplied (truthy), or `search` is supplied but is not a function; every other
configuration passes validation and performs the setup effects. -/
theorem c9_construct_validation (c : Config) :
    ((construct c).rejection.isSome = true ↔
      ((truthy c.data = false ∧ truthy c.search = false) ∨ ∃ t, c.search = .nonFunc t)) ∧
    (construct c).effects
      = (if (construct c).rejection.isSome then []
         else [.configureStdin, .scheduleInitialLoad, .attachListeners]) := by
  unfold construct
  rcases hd : c.data <;> rcases hs : c.search <;> simp [truthy, hd, hs]

/-- C10: selecting while the result list is empty resolves the operation
with `undefined` (`found[line]` is `undefined` out of range) — the same
resolution as cancel — rather than erroring or staying pending. -/
theorem c10_select_empty (s : Sys) (h : s.found = []) (h2 : s.resolved = none) :
    (onSelect s).resolved = some (.ok none) ∧
    (onSelect s).resolved = (onEnd s).resolved := by
  unfold onSelect onEnd endOp jsIndex
  simp [h, h2]

/-- Witness for C10 at the initial search-mode state. -/
theorem c10_select_empty_witness :
    (onSelect (initSearchSys 10 true)).resolved = some (.ok none) ∧
    (onSelect (initSearchSys 10 true)).resolved = (onEnd (initSearchSys 10 true)).resolved :=
  c10_select_empty (initSearchSys 10 true) rfl rfl

end CFS
